import Mathlib

set_option maxHeartbeats 1000000

/-!
Shallow embedding of the cage-explorer pipeline (src/sauvegardes/app_V2.py).

The program loads a CSV of movies, keeps the rows whose Cast contains
"Nicolas Cage", normalizes them (drops rows with missing Year, truncates
Year to an integer, defaults missing/blank posters, derives a single
Motif label from the Genre string), applies the sidebar year-range and
motif filter, and computes a fixed set of aggregates.  The CSV reader and
the rendering layer are external; the dataset is passed in as a list of
records whose fields model the post-read state of the relevant columns
(a missing cell is `none`, numeric cells are rationals).
-/

/-- Does the character list `pat` occur at the start of the second list?
Building block for Python substring containment (`pat in hay`). -/
def listPrefixCheck : List Char → List Char → Bool
  | [], _ => true
  | _ :: _, [] => false
  | a :: as, b :: bs => a == b && listPrefixCheck as bs

/-- Does `pat` occur as a contiguous sublist of the second list? -/
def listSubCheck (pat : List Char) : List Char → Bool
  | [] => pat.isEmpty
  | h :: t => listPrefixCheck pat (h :: t) || listSubCheck pat t

/-- Python substring containment `pat in hay` (also the semantics of
`Series.str.contains` for a regex-free literal pattern). -/
def strContains (hay pat : String) : Bool :=
  listSubCheck pat.toList hay.toList

/-- One row of the source dataset, with the columns the pipeline uses
(app_V2.py reads Title, Year, Genre, Rating, Duration (min), Director,
Cast, Poster).  `none` models a missing (NaN) cell. -/
structure MovieRecord where
  title : String
  year : Option Rat
  genre : Option String
  rating : Option Rat
  duration : Option Rat
  director : Option String
  cast : Option String
  poster : Option String
deriving DecidableEq, Repr

/-- Model of `load_data` (app_V2.py lines 6-10): keep the rows whose Cast contains
"Nicolas Cage"; `na=False` makes a missing Cast never match.  The CSV
read itself is external, so the raw table is the argument. -/
def load_data (df : List MovieRecord) : List MovieRecord :=
  df.filter fun r =>
    match r.cast with
    | none => false
    | some c => strContains c "Nicolas Cage"

/-- Numeric-to-integer narrowing used by `astype(int)` on the Year
column: truncation toward zero. -/
def ratTrunc (q : Rat) : Int :=
  if 0 ≤ q then ⌊q⌋ else ⌈q⌉

/-- app_V2.py line 18. -/
def DEFAULT_POSTER_URL : String :=
  "https://via.placeholder.com/300x450?text=No+Image"

/-- Python `str.strip()`: remove leading and trailing whitespace
characters. -/
def pyStrip (s : String) : String :=
  ⟨((s.toList.dropWhile Char.isWhitespace).reverse.dropWhile
      Char.isWhitespace).reverse⟩

/-- Poster defaulting (app_V2.py lines 20-22): a missing poster, or one
that is blank after stripping surrounding whitespace, becomes the
placeholder; anything else is kept as-is. -/
def poster_default (p : Option String) : String :=
  match p with
  | none => DEFAULT_POSTER_URL
  | some s => if pyStrip s = "" then DEFAULT_POSTER_URL else s

/-- The motif dictionary `MOTIF_MAP` (app_V2.py lines 25-29): insertion-ordered key/label
pairs of the motif dictionary. -/
def MOTIF_MAP : List (String × String) :=
  [("Action", "Action"), ("Adventure", "Adventure"), ("Comedy", "Comedy"),
   ("Drama", "Drama"), ("Thriller", "Thriller"), ("Crime", "Crime"),
   ("Fantasy", "Fantasy"), ("Family", "Family")]

/-- The fixed ordered candidate list of motif labels. -/
def MOTIF_LIST : List String :=
  ["Action", "Adventure", "Comedy", "Drama", "Thriller", "Crime",
   "Fantasy", "Family"]

/-- The loop body of `assign_motif`: scan the key/label pairs in order
and return the label of the first key occurring in the Genre string. -/
def assign_motif_go (genres : String) : List (String × String) → String
  | [] => "Other"
  | (k, label) :: rest =>
    if strContains genres k then label else assign_motif_go genres rest

/-- Model of `assign_motif` (app_V2.py lines 31-35). -/
def assign_motif (genres : String) : String :=
  assign_motif_go genres MOTIF_MAP

/-- A row that survived normalization: integer year, derived motif,
defaulted poster. -/
structure NormRecord where
  title : String
  year : Rat
  year_int : Int
  genre : String
  motif : String
  rating : Option Rat
  duration : Option Rat
  director : Option String
  cast : Option String
  poster : String
deriving DecidableEq, Repr

/-- Build the normalized row for a source row whose Year and Genre are
present (app_V2.py lines 13-37). -/
def mkNorm (r : MovieRecord) (q : Rat) (g : String) : NormRecord :=
  { title := r.title
    year := q
    year_int := ratTrunc q
    genre := g
    motif := assign_motif g
    rating := r.rating
    duration := r.duration
    director := r.director
    cast := r.cast
    poster := poster_default r.poster }

/-- Normalize one row: a missing Year drops the row silently
(the dropna on Year runs first); a present Year with a missing
Genre makes `assign_motif` raise a TypeError (substring test on a
non-string NaN), modelled as an error. -/
def normalizeRecord (r : MovieRecord) : Except String (Option NormRecord) :=
  match r.year with
  | none => Except.ok none
  | some q =>
    match r.genre with
    | none => Except.error "TypeError: argument of type float is not iterable"
    | some g => Except.ok (some (mkNorm r q g))

/-- Normalization of the whole table (app_V2.py lines 13-37): the error
is raised iff some row that survives the Year drop has a missing Genre. -/
def normalizeTable : List MovieRecord → Except String (List NormRecord)
  | [] => Except.ok []
  | r :: rest =>
    match normalizeRecord r with
    | Except.error e => Except.error e
    | Except.ok none => normalizeTable rest
    | Except.ok (some m) =>
      match normalizeTable rest with
      | Except.error e => Except.error e
      | Except.ok ms => Except.ok (m :: ms)

/-- The sidebar selection: inclusive year range and a motif (the string
"All" is the no-restriction sentinel). -/
structure Selection where
  lo : Int
  hi : Int
  motif : String
deriving DecidableEq, Repr

/-- The interactive filter (app_V2.py lines 59-63): year-range filter,
then the motif filter unless the sentinel "All" is selected. -/
def applyFilter (ms : List NormRecord) (sel : Selection) : List NormRecord :=
  let byYear := ms.filter fun r =>
    decide (sel.lo ≤ r.year_int) && decide (r.year_int ≤ sel.hi)
  if sel.motif = "All" then byYear
  else byYear.filter fun r => decide (r.motif = sel.motif)

/-- Stable descending insertion (by a key) into an already built list:
the new element goes after every element whose key is `≥` its own.  This
is the tie behaviour of pandas `value_counts` and `nlargest` with keep=first. -/
def insertKeyDesc {α β : Type} [LinearOrder β] (key : α → β) (x : α) :
    List α → List α
  | [] => [x]
  | y :: ys => if key y ≤ key x then x :: y :: ys else y :: insertKeyDesc key x ys

/-- Stable descending sort by a key. -/
def sortKeyDesc {α β : Type} [LinearOrder β] (key : α → β) : List α → List α
  | [] => []
  | x :: xs => insertKeyDesc key x (sortKeyDesc key xs)

/-- Deduplicate keeping the first occurrence of each element, in order of
first occurrence — the key order of pandas hash-table counting. -/
def firstOccDedup {α : Type} [DecidableEq α] : List α → List α
  | [] => []
  | x :: xs => x :: (firstOccDedup xs).filter fun y => decide (y ≠ x)

/-- First index of `v` in a list (length of the list when absent). -/
def firstIdx {α : Type} [DecidableEq α] (v : α) : List α → Nat
  | [] => 0
  | x :: xs => if x = v then 0 else firstIdx v xs + 1

/-- Occurrence counts keyed in first-appearance order (the unsorted core
of `value_counts`). -/
def countsInOrder {α : Type} [DecidableEq α] (xs : List α) : List (α × Nat) :=
  (firstOccDedup xs).map fun v => (v, xs.count v)

/-- Semantics of `value_counts().nlargest(n)` over a list of values: count occurrences
and keep the `n` largest counts, descending, ties in first-appearance
order (keep=first). -/
def countTopN {α : Type} [DecidableEq α] (n : Nat) (xs : List α) :
    List (α × Nat) :=
  (sortKeyDesc Prod.snd (countsInOrder xs)).take n

/-- Python `s.split(", ")` on character lists: greedy left-to-right scan
for the two-character separator ", ", accumulating the current token. -/
def splitCommaSpace : List Char → List Char → List (List Char)
  | [], acc => [acc.reverse]
  | [c], acc => [(c :: acc).reverse]
  | c1 :: c2 :: rest, acc =>
    if c1 = ',' ∧ c2 = ' ' then acc.reverse :: splitCommaSpace rest []
    else splitCommaSpace (c2 :: rest) (c1 :: acc)

/-- Python `s.split(", ")`, the split used by every explode in the
script. -/
def pySplitCS (s : String) : List String :=
  (splitCommaSpace s.toList []).map fun cs => ⟨cs⟩

/-- The exploded Genre tokens of the filtered subset
(the split-and-explode of the Genre column, app_V2.py line 85). -/
def genreTokens (ms : List NormRecord) : List String :=
  (ms.map fun r => pySplitCS r.genre).flatten

/-- Model of `top_genres` (app_V2.py lines 85-86): top 5 genre tokens by count. -/
def top_genres (ms : List NormRecord) : List (String × Nat) :=
  countTopN 5 (genreTokens ms)

/-- Model of `counts` (app_V2.py line 68): rows per year, keys ascending
(`groupby` sorts its keys). -/
def counts_by_year (ms : List NormRecord) : List (Int × Nat) :=
  let ys := ms.map fun r => r.year_int
  sortKeyDesc (fun p : Int × Nat => -p.1)
    ((firstOccDedup ys).map fun v => (v, ys.count v))

/-- Model of `rating_counts` (app_V2.py line 122): value counts sorted by index
over the present ratings — counts keyed by rating, keys ascending;
missing ratings are dropped by `value_counts`. -/
def rating_counts (ms : List NormRecord) : List (Rat × Nat) :=
  let rs := ms.filterMap fun r => r.rating
  sortKeyDesc (fun p : Rat × Nat => -p.1)
    ((firstOccDedup rs).map fun v => (v, rs.count v))

/-- The present ratings of the subset (NaN entries skipped, as every
pandas reduction here does). -/
def ratings (ms : List NormRecord) : List Rat :=
  ms.filterMap fun r => r.rating

/-- The present durations of the subset; also the data handed to the
duration-distribution chart. -/
def durations (ms : List NormRecord) : List Rat :=
  ms.filterMap fun r => r.duration

/-- Mean of a list of rationals; `none` on the empty list (pandas
`mean()` of an empty/all-NaN series is NaN). -/
def listMeanOpt (xs : List Rat) : Option Rat :=
  match xs with
  | [] => none
  | _ :: _ => some (xs.sum / (xs.length : Rat))

/-- Minimum; `none` on the empty list. -/
def listMinOpt (xs : List Rat) : Option Rat :=
  match xs with
  | [] => none
  | h :: t => some (t.foldl min h)

/-- Maximum; `none` on the empty list. -/
def listMaxOpt (xs : List Rat) : Option Rat :=
  match xs with
  | [] => none
  | h :: t => some (t.foldl max h)

/-- Model of `avg_rating` (app_V2.py line 104). -/
def avg_rating (ms : List NormRecord) : Option Rat := listMeanOpt (ratings ms)

/-- Model of `min_rating` (app_V2.py line 105). -/
def min_rating (ms : List NormRecord) : Option Rat := listMinOpt (ratings ms)

/-- Model of `max_rating` (app_V2.py line 106). -/
def max_rating (ms : List NormRecord) : Option Rat := listMaxOpt (ratings ms)

/-- Model of `avg_duration` (app_V2.py line 107). -/
def avg_duration (ms : List NormRecord) : Option Rat := listMeanOpt (durations ms)

/-- Model of `min_duration` (app_V2.py line 108). -/
def min_duration (ms : List NormRecord) : Option Rat := listMinOpt (durations ms)

/-- Model of `max_duration` (app_V2.py line 109). -/
def max_duration (ms : List NormRecord) : Option Rat := listMaxOpt (durations ms)

/-- A career-highlight card: exactly the columns selected on app_V2.py
line 151 (Title, Year_int, Rating, Poster, Genre). -/
structure Highlight where
  title : String
  year_int : Int
  rating : Rat
  poster : String
  genre : String
deriving DecidableEq, Repr

/-- The rows of the subset paired with their present rating
(`nlargest` never returns a NaN row). -/
def ratedPairs (ms : List NormRecord) : List (NormRecord × Rat) :=
  ms.filterMap fun r => r.rating.map fun q => (r, q)

/-- Project a rated row onto the highlight columns. -/
def mkHighlight (p : NormRecord × Rat) : Highlight :=
  { title := p.1.title
    year_int := p.1.year_int
    rating := p.2
    poster := p.1.poster
    genre := p.1.genre }

/-- Model of `top5` (app_V2.py line 151): nlargest 5 by Rating —
the five rows of highest rating, ties kept in original order, missing
ratings excluded — projected onto the five highlight columns. -/
def top5 (ms : List NormRecord) : List Highlight :=
  ((sortKeyDesc Prod.snd (ratedPairs ms)).take 5).map mkHighlight

/-- Model of `director_df` (app_V2.py line 165): top 5 directors by count;
`value_counts` drops missing directors. -/
def director_df (ms : List NormRecord) : List (String × Nat) :=
  countTopN 5 (ms.filterMap fun r => r.director)

/-- The exploded Cast tokens of the subset. -/
def castTokens (ms : List NormRecord) : List String :=
  ((ms.filterMap fun r => r.cast).map fun c => pySplitCS c).flatten

/-- Model of `co_stars_df` (app_V2.py lines 167-170): explode the Cast strings,
drop the subject token, count, keep the top 5. -/
def co_stars_df (ms : List NormRecord) : List (String × Nat) :=
  countTopN 5 ((castTokens ms).filter fun s => decide (s ≠ "Nicolas Cage"))

/-- Model of `years` (app_V2.py line 47): the sorted distinct integer years of the
normalized set, used for the slider bounds. -/
def years (ms : List NormRecord) : List Int :=
  sortKeyDesc (fun n : Int => -n) (firstOccDedup (ms.map fun r => r.year_int))

/-- All the result tables one interaction hands to the rendering layer. -/
structure Results where
  counts : List (Int × Nat)
  genres5 : List (String × Nat)
  rating_dist : List (Rat × Nat)
  duration_values : List Rat
  avg_r : Option Rat
  min_r : Option Rat
  max_r : Option Rat
  avg_d : Option Rat
  min_d : Option Rat
  max_d : Option Rat
  highlights : List Highlight
  directors : List (String × Nat)
  co_stars : List (String × Nat)
deriving DecidableEq, Repr

/-- One full run of the script for a dataset and a sidebar selection:
subject filter, normalization (may raise on a missing Genre), slider
bounds (`min(years)` raises ValueError on an empty year list, before any
aggregator runs), interactive filter, aggregators. -/
def runApp (df : List MovieRecord) (sel : Selection) :
    Except String Results :=
  match normalizeTable (load_data df) with
  | Except.error e => Except.error e
  | Except.ok ms =>
    match years ms with
    | [] => Except.error "ValueError: min() arg is an empty sequence"
    | _ :: _ =>
      let filtered := applyFilter ms sel
      Except.ok
        { counts := counts_by_year filtered
          genres5 := top_genres filtered
          rating_dist := rating_counts filtered
          duration_values := durations filtered
          avg_r := avg_rating filtered
          min_r := min_rating filtered
          max_r := max_rating filtered
          avg_d := avg_duration filtered
          min_d := min_duration filtered
          max_d := max_duration filtered
          highlights := top5 filtered
          directors := director_df filtered
          co_stars := co_stars_df filtered }

/-! ## Demo inputs used by witnesses and the failing-input evaluation -/

/-- A row whose Cast does not contain the subject: the subject filter
drops it, so zero rows remain and the year list is empty. -/
def nonCage : MovieRecord :=
  { title := "Big", year := some 1988, genre := some "Comedy, Drama",
    rating := some (73/10), duration := some 104,
    director := some "Penny Marshall",
    cast := some "Tom Hanks, Elizabeth Perkins", poster := some "u" }

/-- A Cage row with a fractional year and a genre outside the candidate
list. -/
def demo27 : MovieRecord :=
  { title := "T", year := some (27/10), genre := some "Horror",
    rating := none, duration := none, director := none,
    cast := some "Nicolas Cage", poster := none }

/-- A Cage row with a missing poster. -/
def demoP : MovieRecord :=
  { title := "P", year := some 2000, genre := some "Drama",
    rating := some 6, duration := some 100, director := some "D",
    cast := some "Nicolas Cage, John Travolta", poster := none }

/-- A Cage row with a present year and a missing genre. -/
def demoG : MovieRecord :=
  { title := "G", year := some 1999, genre := none,
    rating := some 5, duration := some 90, director := some "D",
    cast := some "Nicolas Cage", poster := some "u" }

/-- A concrete normalized row used by the aggregator witnesses. -/
def demoNorm : NormRecord :=
  { title := "P", year := 2000, year_int := 2000, genre := "Drama, Action",
    motif := "Action", rating := some 6, duration := some 100,
    director := some "D", cast := some "Nicolas Cage, John Travolta",
    poster := "u" }

/-! ## Inversion lemmas for normalization -/

/-- A row normalizes to "dropped" exactly when its Year is missing. -/
theorem normalizeRecord_ok_none_iff (r : MovieRecord) :
    normalizeRecord r = Except.ok none ↔ r.year = none := by
  cases hy : r.year with
  | none => simp [normalizeRecord, hy]
  | some q =>
    cases hg : r.genre with
    | none => simp [normalizeRecord, hy, hg]
    | some g => simp [normalizeRecord, hy, hg]

/-- A row that normalizes to a kept record had a present Year and Genre,
and the kept record is built by `mkNorm`. -/
theorem normalizeRecord_ok_some {r : MovieRecord} {m : NormRecord}
    (h : normalizeRecord r = Except.ok (some m)) :
    ∃ q g, r.year = some q ∧ r.genre = some g ∧ m = mkNorm r q g := by
  cases hy : r.year with
  | none => rw [normalizeRecord, hy] at h; cases h
  | some q =>
    cases hg : r.genre with
    | none => simp [normalizeRecord, hy, hg] at h
    | some g =>
      simp only [normalizeRecord, hy, hg] at h
      injection h with h1
      injection h1 with h2
      exact ⟨q, g, rfl, rfl, h2.symm⟩

/-- Every record of a successful normalization comes from a source row
with present Year and Genre via `mkNorm`. -/
theorem normalizeTable_ok_mem {df : List MovieRecord} {ms : List NormRecord}
    (h : normalizeTable df = Except.ok ms) :
    ∀ m ∈ ms, ∃ src ∈ df, ∃ q g,
      src.year = some q ∧ src.genre = some g ∧ m = mkNorm src q g := by
  induction df generalizing ms with
  | nil =>
    rw [normalizeTable] at h
    injection h with h1
    subst h1
    intro m hm
    cases hm
  | cons r rest ih =>
    rw [normalizeTable] at h
    cases hr : normalizeRecord r with
    | error e => rw [hr] at h; cases h
    | ok o =>
      rw [hr] at h
      cases o with
      | none =>
        intro m hm
        obtain ⟨src, hsrc, rest'⟩ := ih h m hm
        exact ⟨src, List.mem_cons_of_mem r hsrc, rest'⟩
      | some m0 =>
        cases hrest : normalizeTable rest with
        | error e => rw [hrest] at h; cases h
        | ok ms' =>
          rw [hrest] at h
          injection h with h1
          subst h1
          intro m hm
          rcases List.mem_cons.mp hm with rfl | hm'
          · obtain ⟨q, g, h1, h2, h3⟩ := normalizeRecord_ok_some hr
            exact ⟨r, List.mem_cons_self r rest, q, g, h1, h2, h3⟩
          · obtain ⟨src, hsrc, rest'⟩ := ih hrest m hm'
            exact ⟨src, List.mem_cons_of_mem r hsrc, rest'⟩

/-- If normalization succeeded, every row surviving the Year drop had a
present Genre. -/
theorem normalizeTable_ok_genre {df : List MovieRecord} {ms : List NormRecord}
    (h : normalizeTable df = Except.ok ms) :
    ∀ src ∈ df, src.year.isSome = true → src.genre.isSome = true := by
  induction df generalizing ms with
  | nil => intro src hs; cases hs
  | cons r rest ih =>
    rw [normalizeTable] at h
    cases hr : normalizeRecord r with
    | error e => rw [hr] at h; cases h
    | ok o =>
      rw [hr] at h
      intro src hs hy
      cases o with
      | none =>
        rcases List.mem_cons.mp hs with rfl | hs'
        · have := (normalizeRecord_ok_none_iff src).mp hr
          rw [this] at hy
          cases hy
        · exact ih h src hs' hy
      | some m0 =>
        cases hrest : normalizeTable rest with
        | error e => rw [hrest] at h; cases h
        | ok ms' =>
          rcases List.mem_cons.mp hs with rfl | hs'
          · obtain ⟨q, g, h1, h2, _⟩ := normalizeRecord_ok_some hr
            rw [h2]
            rfl
          · exact ih hrest src hs' hy

/-- A surviving row with a missing Genre makes normalization raise. -/
theorem normalizeTable_error_of_bad {df : List MovieRecord}
    {src : MovieRecord} (hmem : src ∈ df) (hy : src.year.isSome = true)
    (hg : src.genre = none) :
    ∃ e, normalizeTable df = Except.error e := by
  induction df with
  | nil => cases hmem
  | cons r rest ih =>
    rcases List.mem_cons.mp hmem with rfl | hmem'
    · obtain ⟨q, hq⟩ := Option.isSome_iff_exists.mp hy
      refine ⟨"TypeError: argument of type float is not iterable", ?_⟩
      rw [normalizeTable]
      have hr : normalizeRecord src =
          Except.error "TypeError: argument of type float is not iterable" := by
        simp [normalizeRecord, hq, hg]
      rw [hr]
    · obtain ⟨e, he⟩ := ih hmem'
      rw [normalizeTable]
      cases hr : normalizeRecord r with
      | error e' => exact ⟨e', rfl⟩
      | ok o =>
        cases o with
        | none => exact ⟨e, he⟩
        | some m0 => rw [he]; exact ⟨e, rfl⟩

/-- The defaulted poster of any row is never the empty string. -/
theorem poster_default_ne_empty (p : Option String) : poster_default p ≠ "" := by
  cases p with
  | none =>
    rw [poster_default]
    decide
  | some s =>
    rw [poster_default]
    by_cases h : pyStrip s = ""
    · rw [if_pos h]; decide
    · rw [if_neg h]
      intro hs
      subst hs
      exact h (by decide)

/-! ## Claim theorems: motif, subject filter, normalization, filter -/

/-- Bridge between the dictionary scan of `assign_motif` and a first-match
scan of the candidate label list. -/
theorem assign_motif_go_find (g : String) : ∀ l : List String,
    assign_motif_go g (l.map fun s => (s, s)) =
      ((l.find? fun k => strContains g k).getD "Other") := by
  intro l
  induction l with
  | nil => rfl
  | cons k rest ih =>
    cases h : strContains g k with
    | true => simp [assign_motif_go, List.find?, h]
    | false => simp [assign_motif_go, List.find?, h, ih]

/-- C2: for every Genre string, motif derivation returns the first label
of the fixed ordered candidate list (Action, Adventure, Comedy, Drama,
Thriller, Crime, Fantasy, Family) occurring as a substring of the Genre
string, and "Other" when none matches; in particular Genre
"Drama, Action" is assigned "Action". -/
theorem motif_first_match :
    (∀ g : String,
      assign_motif g = ((MOTIF_LIST.find? fun k => strContains g k).getD "Other"))
    ∧ assign_motif "Drama, Action" = "Action" := by
  constructor
  · intro g
    have h : MOTIF_MAP = MOTIF_LIST.map fun s => (s, s) := by rfl
    rw [assign_motif, h, assign_motif_go_find]
  · decide

/-- C4: the subject filter keeps exactly the rows whose Cast contains
"Nicolas Cage" as a case-sensitive substring; a missing Cast never
matches (and, being a total function, the filter never raises). -/
theorem subject_filter_mem :
    ∀ (df : List MovieRecord) (r : MovieRecord),
      r ∈ load_data df ↔
        r ∈ df ∧ ∃ c, r.cast = some c ∧ strContains c "Nicolas Cage" = true := by
  intro df r
  rw [load_data, List.mem_filter]
  constructor
  · rintro ⟨hdf, hp⟩
    refine ⟨hdf, ?_⟩
    cases hc : r.cast with
    | none => rw [hc] at hp; cases hp
    | some c => exact ⟨c, rfl, by rw [hc] at hp; exact hp⟩
  · rintro ⟨hdf, c, hc, hs⟩
    refine ⟨hdf, ?_⟩
    rw [hc]
    exact hs

/-- Witness for C4: the concrete row `demoP` (Cast contains the
subject) is kept by the subject filter. -/
theorem subject_filter_mem_w : demoP ∈ load_data [demoP] :=
  (subject_filter_mem [demoP] demoP).mpr
    ⟨List.mem_cons_self _ _, "Nicolas Cage, John Travolta", rfl, by decide⟩

/-- C9: the interactive filter is idempotent — filtering an
already-filtered set by the same selection returns the same list. -/
theorem interactive_filter_idem :
    ∀ (ms : List NormRecord) (sel : Selection),
      applyFilter (applyFilter ms sel) sel = applyFilter ms sel := by
  intro ms sel
  rw [applyFilter, applyFilter]
  by_cases h : sel.motif = "All"
  · rw [if_pos h, if_pos h]
    exact List.filter_eq_self.mpr fun a ha => (List.mem_filter.mp ha).2
  · rw [if_neg h, if_neg h]
    have h1 : ∀ a ∈ (ms.filter fun r =>
          decide (sel.lo ≤ r.year_int) && decide (r.year_int ≤ sel.hi)).filter
          (fun r => decide (r.motif = sel.motif)),
        (decide (sel.lo ≤ a.year_int) && decide (a.year_int ≤ sel.hi)) = true :=
      fun a ha => (List.mem_filter.mp (List.mem_filter.mp ha).1).2
    have h2 : ∀ a ∈ (ms.filter fun r =>
          decide (sel.lo ≤ r.year_int) && decide (r.year_int ≤ sel.hi)).filter
          (fun r => decide (r.motif = sel.motif)),
        decide (a.motif = sel.motif) = true :=
      fun a ha => (List.mem_filter.mp ha).2
    rw [List.filter_eq_self.mpr h1, List.filter_eq_self.mpr h2]

/-- C5: a row with a missing Year is silently dropped by normalization
(no error); a row with a present numeric Year (and a present Genre, so
that motif derivation succeeds) is kept with the Year narrowed to an
integer by truncation toward zero — the magnitude is floored and the
sign kept, integers pass through unchanged, and 2.7 truncates to 2
(rounding would give 3) while -2.7 truncates to -2. -/
theorem year_truncation :
    (∀ src : MovieRecord, src.year = none →
      normalizeRecord src = Except.ok none)
    ∧ (∀ (src : MovieRecord) (q : Rat) (g : String),
        src.year = some q → src.genre = some g →
        ∃ m : NormRecord, normalizeRecord src = Except.ok (some m) ∧
          m.year_int = ratTrunc q ∧
          ⌊|q|⌋ = |m.year_int| ∧
          (0 ≤ q → 0 ≤ m.year_int) ∧ (q ≤ 0 → m.year_int ≤ 0) ∧
          ∀ z : Int, q = (z : Rat) → m.year_int = z)
    ∧ ratTrunc (27 / 10) = 2 ∧ ratTrunc (-(27 / 10)) = -2
    ∧ ratTrunc (-5) = -5 := by
  refine ⟨?_, ?_,
    by rw [ratTrunc, if_pos (by norm_num)]; rw [Int.floor_eq_iff]; norm_num,
    by rw [ratTrunc, if_neg (by norm_num)]; rw [Int.ceil_eq_iff]; norm_num,
    by rw [ratTrunc, if_neg (by norm_num)]; rw [Int.ceil_eq_iff]; norm_num⟩
  · intro src h
    rw [normalizeRecord, h]
  · intro src q g hy hg
    refine ⟨mkNorm src q g, by rw [normalizeRecord, hy, hg], rfl, ?_, ?_, ?_, ?_⟩
    · show ⌊|q|⌋ = |ratTrunc q|
      by_cases h : 0 ≤ q
      · rw [ratTrunc, if_pos h, abs_of_nonneg h,
          abs_of_nonneg (Int.floor_nonneg.mpr h)]
      · push_neg at h
        rw [ratTrunc, if_neg (not_le.mpr h), abs_of_neg h, Int.floor_neg,
          abs_of_nonpos (Int.ceil_le.mpr (by exact_mod_cast h.le))]
    · intro hq
      show 0 ≤ ratTrunc q
      rw [ratTrunc, if_pos hq]
      exact Int.floor_nonneg.mpr hq
    · intro hq
      show ratTrunc q ≤ 0
      rw [ratTrunc]
      split_ifs with h
      · have : q = 0 := le_antisymm hq h
        subst this
        simp
      · exact Int.ceil_le.mpr (by exact_mod_cast hq)
    · intro z hz
      show ratTrunc q = z
      subst hz
      rw [ratTrunc]
      split_ifs with h
      · exact Int.floor_intCast z
      · exact Int.ceil_intCast z

/-- Witness for C5 at the concrete row `demo27` (Year 2.7): the row is
kept and its integer year is 2. -/
theorem year_truncation_w :
    ∃ m : NormRecord, normalizeRecord demo27 = Except.ok (some m) ∧
      m.year_int = 2 := by
  obtain ⟨m, h1, h2, -, -, -, -⟩ :=
    year_truncation.2.1 demo27 (27 / 10) "Horror" rfl rfl
  exact ⟨m, h1, by rw [h2]; exact year_truncation.2.2.1⟩

/-- C10: motif derivation is not total on rows with a missing Genre —
a row that survives the Year drop but has no Genre string makes the
substring scan raise a TypeError, so whole-table normalization errors
instead of assigning "Other" or dropping the row, and it succeeds only
when every surviving row has a Genre string. -/
theorem motif_missing_genre :
    (∀ (src : MovieRecord) (q : Rat), src.year = some q → src.genre = none →
      normalizeRecord src =
        Except.error "TypeError: argument of type float is not iterable")
    ∧ (∀ (df : List MovieRecord) (ms : List NormRecord),
        normalizeTable df = Except.ok ms →
        ∀ src ∈ df, src.year.isSome = true → src.genre.isSome = true)
    ∧ (∀ (df : List MovieRecord) (src : MovieRecord), src ∈ df →
        src.year.isSome = true → src.genre = none →
        ∃ e, normalizeTable df = Except.error e) := by
  refine ⟨?_, ?_, ?_⟩
  · intro src q hy hg
    rw [normalizeRecord, hy, hg]
  · intro df ms h
    exact normalizeTable_ok_genre h
  · intro df src hmem hy hg
    exact normalizeTable_error_of_bad hmem hy hg

/-- Witness for C10 at the concrete row `demoG` (Year 1999, Genre
missing): the row itself and the one-row table both error. -/
theorem motif_missing_genre_w :
    normalizeRecord demoG =
      Except.error "TypeError: argument of type float is not iterable"
    ∧ ∃ e, normalizeTable [demoG] = Except.error e := by
  constructor
  · exact motif_missing_genre.1 demoG 1999 rfl rfl
  · exact motif_missing_genre.2.2 [demoG] demoG (List.mem_cons_self _ _)
      (by decide) rfl

/-- C3: every record that passes normalization has an integer year
(`year_int`, obtained by truncation from a present numeric Year) and a
non-empty poster; a missing poster, or one that is blank after stripping
surrounding whitespace, is replaced by the fixed placeholder URL, and
any other poster value is kept as-is. -/
theorem normalized_invariants :
    ∀ (df : List MovieRecord) (ms : List NormRecord),
      normalizeTable df = Except.ok ms → ∀ r ∈ ms,
        r.poster ≠ ""
        ∧ (∃ src ∈ df, ∃ q : Rat, src.year = some q ∧
            r.year_int = ratTrunc q ∧ r.poster = poster_default src.poster)
        ∧ poster_default none = DEFAULT_POSTER_URL
        ∧ (∀ s : String, pyStrip s = "" →
            poster_default (some s) = DEFAULT_POSTER_URL)
        ∧ (∀ s : String, pyStrip s ≠ "" → poster_default (some s) = s) := by
  intro df ms h r hr
  obtain ⟨src, hsrc, q, g, hq, hg, hmk⟩ := normalizeTable_ok_mem h r hr
  subst hmk
  refine ⟨poster_default_ne_empty src.poster, ⟨src, hsrc, q, hq, rfl, rfl⟩,
    rfl, ?_, ?_⟩
  · intro s hs
    rw [poster_default, if_pos hs]
  · intro s hs
    rw [poster_default, if_neg hs]

/-- Witness for C3 at the one-row table `[demoP]` (poster missing): the
normalized poster is the placeholder, hence non-empty. -/
theorem normalized_invariants_w :
    (mkNorm demoP 2000 "Drama").poster ≠ ""
    ∧ (mkNorm demoP 2000 "Drama").poster = DEFAULT_POSTER_URL := by
  have h := normalized_invariants [demoP] [mkNorm demoP 2000 "Drama"] rfl
    (mkNorm demoP 2000 "Drama") (List.mem_cons_self _ _)
  exact ⟨h.1, rfl⟩

/-- C1 (failing input): on a dataset where zero rows survive the subject
filter, the script raises ValueError while computing the year-slider
bounds (`min(years)` on an empty list) before any aggregator runs — so
the aggregators do not all "return empty results without raising" on
that input, even though, as the remaining conjuncts show, on an empty
*filtered subset* each aggregator itself does return an empty table and
each descriptive statistic is undefined (`none`, never 0). -/
theorem empty_subject_crash :
    runApp [nonCage] ⟨1988, 1988, "All"⟩ =
      Except.error "ValueError: min() arg is an empty sequence"
    ∧ counts_by_year [] = [] ∧ top_genres [] = [] ∧ rating_counts [] = []
    ∧ durations [] = [] ∧ top5 [] = [] ∧ director_df [] = []
    ∧ co_stars_df [] = []
    ∧ avg_rating [] = none ∧ min_rating [] = none ∧ max_rating [] = none
    ∧ avg_duration [] = none ∧ min_duration [] = none
    ∧ max_duration [] = none := by
  exact ⟨rfl, rfl, rfl, rfl, rfl, rfl, rfl, rfl, rfl, rfl, rfl, rfl, rfl, rfl⟩

/-! ## Stable-sort infrastructure -/

/-- Membership through stable insertion. -/
theorem mem_insertKeyDesc {α β : Type} [LinearOrder β] (key : α → β)
    {x z : α} (l : List α) :
    z ∈ insertKeyDesc key x l ↔ z = x ∨ z ∈ l := by
  induction l with
  | nil => simp [insertKeyDesc]
  | cons y ys ih =>
    by_cases h : key y ≤ key x
    · simp [insertKeyDesc, h]
    · simp only [insertKeyDesc, if_neg h, List.mem_cons, ih]
      tauto

/-- Stable insertion permutes consing. -/
theorem perm_insertKeyDesc {α β : Type} [LinearOrder β] (key : α → β)
    (x : α) (l : List α) : (insertKeyDesc key x l).Perm (x :: l) := by
  induction l with
  | nil => exact List.Perm.refl _
  | cons y ys ih =>
    by_cases h : key y ≤ key x
    · rw [insertKeyDesc, if_pos h]
    · rw [insertKeyDesc, if_neg h]
      exact (ih.cons y).trans (List.Perm.swap x y ys)

/-- The stable sort is a permutation of its input. -/
theorem perm_sortKeyDesc {α β : Type} [LinearOrder β] (key : α → β)
    (l : List α) : (sortKeyDesc key l).Perm l := by
  induction l with
  | nil => exact List.Perm.refl _
  | cons x xs ih =>
    rw [sortKeyDesc]
    exact (perm_insertKeyDesc key x _).trans (ih.cons x)

/-- Inserting below a pairwise "descending keys, ties keep `Q`" list
preserves that shape, provided the new element is `Q`-below everything
(it came earlier in the original order). -/
theorem pairwise_insertKeyDesc {α β : Type} [LinearOrder β] (key : α → β)
    {Q : α → α → Prop} {x : α} {l : List α}
    (hl : l.Pairwise fun a b => key b ≤ key a ∧ (key a ≤ key b → Q a b))
    (hx : ∀ b ∈ l, Q x b) :
    (insertKeyDesc key x l).Pairwise
      fun a b => key b ≤ key a ∧ (key a ≤ key b → Q a b) := by
  induction l with
  | nil => simp [insertKeyDesc]
  | cons y ys ih =>
    rcases List.pairwise_cons.mp hl with ⟨hy, hys⟩
    by_cases h : key y ≤ key x
    · rw [insertKeyDesc, if_pos h]
      refine List.pairwise_cons.mpr ⟨?_, hl⟩
      intro z hz
      rcases List.mem_cons.mp hz with rfl | hz'
      · exact ⟨h, fun _ => hx z (List.mem_cons_self _ _)⟩
      · exact ⟨(hy z hz').1.trans h, fun _ => hx z (List.mem_cons_of_mem _ hz')⟩
    · rw [insertKeyDesc, if_neg h]
      push_neg at h
      refine List.pairwise_cons.mpr
        ⟨?_, ih hys fun b hb => hx b (List.mem_cons_of_mem _ hb)⟩
      intro z hz
      rcases (mem_insertKeyDesc key ys).mp hz with rfl | hz'
      · exact ⟨h.le, fun hle => absurd hle (not_le.mpr h)⟩
      · exact hy z hz'

/-- Stability, pairwise form: the sorted list is pairwise "larger key
first", and any tie keeps whatever pairwise relation the input had. -/
theorem pairwise_sortKeyDesc {α β : Type} [LinearOrder β] (key : α → β)
    {Q : α → α → Prop} {l : List α} (hl : l.Pairwise Q) :
    (sortKeyDesc key l).Pairwise
      fun a b => key b ≤ key a ∧ (key a ≤ key b → Q a b) := by
  induction l with
  | nil => simp [sortKeyDesc]
  | cons x xs ih =>
    rcases List.pairwise_cons.mp hl with ⟨hx, hxs⟩
    rw [sortKeyDesc]
    refine pairwise_insertKeyDesc key (ih hxs) ?_
    intro b hb
    exact hx b ((perm_sortKeyDesc key xs).mem_iff.mp hb)

/-- The sort output has pairwise descending keys. -/
theorem sorted_sortKeyDesc {α β : Type} [LinearOrder β] (key : α → β)
    (l : List α) :
    (sortKeyDesc key l).Pairwise fun a b => key b ≤ key a := by
  have htriv : l.Pairwise fun _ _ => True := by
    induction l with
    | nil => exact List.Pairwise.nil
    | cons a t ih => exact List.pairwise_cons.mpr ⟨fun _ _ => trivial, ih⟩
  exact (pairwise_sortKeyDesc key htriv).imp fun h => h.1

/-- Every element kept by `take` has a key at least as large as every
element left in `drop`. -/
theorem sortKeyDesc_take_drop {α β : Type} [LinearOrder β] (key : α → β)
    (l : List α) (n : Nat) :
    ∀ a ∈ (sortKeyDesc key l).take n, ∀ b ∈ (sortKeyDesc key l).drop n,
      key b ≤ key a := by
  have hs := sorted_sortKeyDesc key l
  rw [← List.take_append_drop n (sortKeyDesc key l)] at hs
  exact (List.pairwise_append.mp hs).2.2

/-- Stability, filter form: the elements of any one key class come out of
the sort exactly as they went in. -/
theorem filter_insertKeyDesc {α β : Type} [LinearOrder β] (key : α → β)
    (x : α) (l : List α) (k : β) :
    (insertKeyDesc key x l).filter (fun a => decide (key a = k)) =
      if key x = k then x :: l.filter (fun a => decide (key a = k))
      else l.filter (fun a => decide (key a = k)) := by
  induction l with
  | nil => by_cases h : key x = k <;> simp [insertKeyDesc, h]
  | cons y ys ih =>
    by_cases h : key y ≤ key x
    · rw [insertKeyDesc, if_pos h]
      by_cases hx : key x = k <;> simp [List.filter_cons, hx]
    · rw [insertKeyDesc, if_neg h]
      push_neg at h
      by_cases hyk : key y = k
      · have hxk : key x ≠ k := fun hx => (ne_of_gt h) (hyk.trans hx.symm)
        simp [List.filter_cons, hyk, ih, hxk]
      · by_cases hxk : key x = k <;> simp [List.filter_cons, hyk, ih, hxk]

/-- Stability of the whole sort in filter form. -/
theorem filter_sortKeyDesc {α β : Type} [LinearOrder β] (key : α → β)
    (l : List α) (k : β) :
    (sortKeyDesc key l).filter (fun a => decide (key a = k)) =
      l.filter (fun a => decide (key a = k)) := by
  induction l with
  | nil => rfl
  | cons x xs ih =>
    rw [sortKeyDesc, filter_insertKeyDesc]
    by_cases hx : key x = k <;> simp [List.filter_cons, hx, ih]

/-! ## First-occurrence dedup and counting -/

/-- Dedup keeps exactly the members. -/
theorem mem_firstOccDedup {α : Type} [DecidableEq α] {v : α} :
    ∀ {l : List α}, v ∈ firstOccDedup l ↔ v ∈ l := by
  intro l
  induction l with
  | nil => simp [firstOccDedup]
  | cons x xs ih =>
    by_cases hvx : v = x
    · simp [firstOccDedup, hvx]
    · simp [firstOccDedup, hvx, List.mem_filter, ih]

/-- Dedup output has no duplicates. -/
theorem nodup_firstOccDedup {α : Type} [DecidableEq α] :
    ∀ l : List α, (firstOccDedup l).Nodup
  | [] => List.nodup_nil
  | x :: xs => by
    rw [firstOccDedup]
    refine List.nodup_cons.mpr ⟨?_, List.Nodup.filter _ (nodup_firstOccDedup xs)⟩
    intro hx
    have h2 := (List.mem_filter.mp hx).2
    simp at h2

/-- Dedup lists elements in order of first occurrence. -/
theorem pairwise_firstIdx {α : Type} [DecidableEq α] :
    ∀ l : List α,
      (firstOccDedup l).Pairwise fun a b => firstIdx a l ≤ firstIdx b l
  | [] => List.Pairwise.nil
  | x :: xs => by
    rw [firstOccDedup]
    refine List.pairwise_cons.mpr ⟨?_, ?_⟩
    · intro b _
      have : firstIdx x (x :: xs) = 0 := by rw [firstIdx, if_pos rfl]
      rw [this]
      exact Nat.zero_le _
    · have base := pairwise_firstIdx xs
      have filt := List.Pairwise.sublist
        (List.filter_sublist (p := fun y => decide (y ≠ x)) (firstOccDedup xs))
        base
      refine List.Pairwise.imp_of_mem ?_ filt
      intro a b ha hb hab
      have hax : a ≠ x := by simpa using (List.mem_filter.mp ha).2
      have hbx : b ≠ x := by simpa using (List.mem_filter.mp hb).2
      rw [firstIdx, if_neg fun h => hax h.symm,
        firstIdx, if_neg fun h => hbx h.symm]
      exact Nat.succ_le_succ hab

/-- The keys of `countsInOrder` are the first-occurrence dedup. -/
theorem countsInOrder_fst {α : Type} [DecidableEq α] (xs : List α) :
    (countsInOrder xs).map Prod.fst = firstOccDedup xs := by
  rw [countsInOrder, List.map_map]
  exact List.map_id _

/-- Any entry of `countsInOrder` is a member of the input with its exact
occurrence count. -/
theorem mem_countsInOrder {α : Type} [DecidableEq α] {xs : List α}
    {p : α × Nat} (h : p ∈ countsInOrder xs) :
    p.1 ∈ xs ∧ p.2 = xs.count p.1 := by
  obtain ⟨v, hv, hveq⟩ := List.mem_map.mp h
  cases hveq
  exact ⟨mem_firstOccDedup.mp hv, rfl⟩

/-- Entries of `countsInOrder` are pairwise in first-occurrence order. -/
theorem pairwise_countsInOrder {α : Type} [DecidableEq α] (xs : List α) :
    (countsInOrder xs).Pairwise
      fun p q => firstIdx p.1 xs ≤ firstIdx q.1 xs := by
  rw [countsInOrder]
  exact List.pairwise_map.mpr (pairwise_firstIdx xs)

/-- Full behaviour of `value_counts().nlargest(n)`: distinct keys, exact
multiset counts, `min n` distinct-value length, counts descending with
ties in first-encountered order, and no uncounted value beats a kept one. -/
theorem countTopN_spec {γ : Type} [DecidableEq γ] (n : Nat) (xs : List γ) :
    ((countTopN n xs).map Prod.fst).Nodup
    ∧ (∀ p ∈ countTopN n xs, p.1 ∈ xs ∧ p.2 = xs.count p.1)
    ∧ (countTopN n xs).length = min n (firstOccDedup xs).length
    ∧ (countTopN n xs).Pairwise (fun p q => q.2 ≤ p.2 ∧
        (p.2 = q.2 → firstIdx p.1 xs ≤ firstIdx q.1 xs))
    ∧ (∀ v ∈ xs, v ∉ (countTopN n xs).map Prod.fst →
        ∀ p ∈ countTopN n xs, xs.count v ≤ p.2) := by
  have hperm := perm_sortKeyDesc (Prod.snd : γ × Nat → Nat) (countsInOrder xs)
  refine ⟨?_, ?_, ?_, ?_, ?_⟩
  · have h1 : ((sortKeyDesc Prod.snd (countsInOrder xs)).map Prod.fst).Nodup := by
      have hpm := hperm.map Prod.fst
      rw [countsInOrder_fst] at hpm
      exact hpm.symm.nodup (nodup_firstOccDedup xs)
    rw [countTopN, List.map_take]
    exact List.Nodup.sublist (List.take_sublist _ _) h1
  · intro p hp
    rw [countTopN] at hp
    have hS : p ∈ sortKeyDesc Prod.snd (countsInOrder xs) :=
      List.Sublist.mem hp (List.take_sublist _ _)
    exact mem_countsInOrder (hperm.mem_iff.mp hS)
  · rw [countTopN, List.length_take, hperm.length_eq, countsInOrder,
      List.length_map]
  · have hQ := pairwise_countsInOrder xs
    have hS := pairwise_sortKeyDesc (Prod.snd : γ × Nat → Nat) hQ
    have hT := List.Pairwise.sublist (List.take_sublist n _) hS
    rw [countTopN]
    exact hT.imp fun h => ⟨h.1, fun heq => h.2 (le_of_eq heq)⟩
  · intro v hv hnot p hp
    rw [countTopN] at hp
    have hvD : (v, xs.count v) ∈ countsInOrder xs :=
      List.mem_map.mpr ⟨v, mem_firstOccDedup.mpr hv, rfl⟩
    have hvS : (v, xs.count v) ∈ sortKeyDesc Prod.snd (countsInOrder xs) :=
      hperm.mem_iff.mpr hvD
    rw [← List.take_append_drop n
      (sortKeyDesc Prod.snd (countsInOrder xs))] at hvS
    rcases List.mem_append.mp hvS with hl | hr
    · exact absurd
        (List.mem_map.mpr ⟨(v, xs.count v), by rw [countTopN]; exact hl, rfl⟩)
        hnot
    · exact sortKeyDesc_take_drop (Prod.snd : γ × Nat → Nat)
        (countsInOrder xs) n p hp (v, xs.count v) hr

/-- C6: the genre breakdown splits each Genre string on ", ", flattens
the tokens of the whole subset, counts occurrences, and returns the top
5 genres by count descending — distinct keys carrying their exact
multiset counts, at most `min 5 #distinct` of them, ties ordered by
first encounter in the flattened token sequence, and every distinct
token left out counts no more than any token kept. -/
theorem top_genres_spec (ms : List NormRecord) :
    ((top_genres ms).map Prod.fst).Nodup
    ∧ (∀ p ∈ top_genres ms,
        p.1 ∈ genreTokens ms ∧ p.2 = (genreTokens ms).count p.1)
    ∧ (top_genres ms).length = min 5 (firstOccDedup (genreTokens ms)).length
    ∧ (top_genres ms).Pairwise (fun p q => q.2 ≤ p.2 ∧
        (p.2 = q.2 →
          firstIdx p.1 (genreTokens ms) ≤ firstIdx q.1 (genreTokens ms)))
    ∧ (∀ v ∈ genreTokens ms, v ∉ (top_genres ms).map Prod.fst →
        ∀ p ∈ top_genres ms, (genreTokens ms).count v ≤ p.2) :=
  countTopN_spec 5 (genreTokens ms)

/-- Witness for C6 on a concrete one-row subset with Genre
"Drama, Action": the entry ("Drama", 1) of the top-5 table is a token
with multiset count 1. -/
theorem top_genres_spec_w :
    "Drama" ∈ genreTokens [demoNorm]
    ∧ (1 : Nat) = (genreTokens [demoNorm]).count "Drama" :=
  (top_genres_spec [demoNorm]).2.1 ("Drama", 1) (by decide)

/-- C8: the top-5 co-star table never contains the subject's own name
token, for any subset: the cast tokens equal to "Nicolas Cage" are
excluded before counting. -/
theorem co_stars_no_subject (ms : List NormRecord) :
    (co_stars_df ms).all (fun p => decide (p.1 ≠ "Nicolas Cage")) = true := by
  rw [List.all_eq_true]
  intro p hp
  rw [decide_eq_true_iff]
  intro hp1
  rw [co_stars_df, countTopN] at hp
  have hS := List.Sublist.mem hp (List.take_sublist _ _)
  have hD := (perm_sortKeyDesc (Prod.snd : String × Nat → Nat) _).mem_iff.mp hS
  have h1 := (mem_countsInOrder hD).1
  have h2 := (List.mem_filter.mp h1).2
  rw [hp1] at h2
  simp at h2

/-- C7: the top-5-by-rating table selects the (at most) 5 rows of
highest present Rating — rows with a missing Rating are never selected —
sorted descending, with rating ties kept in the original subset order
(the selected part of each rating class is a prefix of that class in the
subset), every selected rating at least as large as any rating left out
(counted with multiplicity), and each card carrying exactly the Title,
Year_int, Rating, Poster and Genre of its row. -/
theorem top5_spec (ms : List NormRecord) :
    (∀ rq : NormRecord × Rat,
      rq ∈ ratedPairs ms ↔ rq.1 ∈ ms ∧ rq.1.rating = some rq.2)
    ∧ (top5 ms).length = min 5 (ratedPairs ms).length
    ∧ (∀ h ∈ top5 ms, ∃ rq ∈ ratedPairs ms, h = mkHighlight rq)
    ∧ (top5 ms).Pairwise (fun a b => b.rating ≤ a.rating)
    ∧ (∀ q : Rat,
        ((top5 ms).map Highlight.rating).count q <
          ((ratedPairs ms).map Prod.snd).count q →
        ∀ h ∈ top5 ms, q ≤ h.rating)
    ∧ (∀ q : Rat, ∃ rest,
        ((ratedPairs ms).filter fun rq => decide (rq.2 = q)).map mkHighlight =
          ((top5 ms).filter fun h => decide (h.rating = q)) ++ rest) := by
  have hperm := perm_sortKeyDesc (Prod.snd : NormRecord × Rat → Rat)
    (ratedPairs ms)
  refine ⟨?_, ?_, ?_, ?_, ?_, ?_⟩
  · intro rq
    obtain ⟨a, b⟩ := rq
    simp only [ratedPairs, List.mem_filterMap, Option.map_eq_some']
    constructor
    · rintro ⟨r, hr, q0, hq0, heq⟩
      rw [Prod.mk.injEq] at heq
      rcases heq with ⟨rfl, rfl⟩
      exact ⟨hr, hq0⟩
    · rintro ⟨ha, hb⟩
      exact ⟨a, ha, b, hb, rfl⟩
  · rw [top5, List.length_map, List.length_take, hperm.length_eq]
  · intro h hh
    rw [top5] at hh
    obtain ⟨p, hp, hmk⟩ := List.mem_map.mp hh
    exact ⟨p, hperm.mem_iff.mp (List.Sublist.mem hp (List.take_sublist _ _)),
      hmk.symm⟩
  · have hs := sorted_sortKeyDesc (Prod.snd : NormRecord × Rat → Rat)
      (ratedPairs ms)
    have hT := List.Pairwise.sublist (List.take_sublist 5 _) hs
    rw [top5]
    exact List.pairwise_map.mpr hT
  · intro q hcount h hh
    have hmapeq : (top5 ms).map Highlight.rating =
        ((sortKeyDesc Prod.snd (ratedPairs ms)).take 5).map Prod.snd := by
      rw [top5, List.map_map]
      rfl
    have hcnt2 : ((ratedPairs ms).map Prod.snd).count q =
        ((sortKeyDesc Prod.snd (ratedPairs ms)).map Prod.snd).count q :=
      ((hperm.map Prod.snd).count_eq q).symm
    have hsplit : (sortKeyDesc Prod.snd (ratedPairs ms)).map Prod.snd =
        ((sortKeyDesc Prod.snd (ratedPairs ms)).take 5).map Prod.snd ++
          ((sortKeyDesc Prod.snd (ratedPairs ms)).drop 5).map Prod.snd := by
      rw [← List.map_append, List.take_append_drop]
    rw [hmapeq, hcnt2, hsplit, List.count_append] at hcount
    have hdrop : 0 <
        (((sortKeyDesc Prod.snd (ratedPairs ms)).drop 5).map Prod.snd).count q := by
      omega
    have hqmem := List.count_pos_iff.mp hdrop
    obtain ⟨b, hb, hbq⟩ := List.mem_map.mp hqmem
    rw [top5] at hh
    obtain ⟨p, hp, hmk⟩ := List.mem_map.mp hh
    have hle := sortKeyDesc_take_drop (Prod.snd : NormRecord × Rat → Rat)
      (ratedPairs ms) 5 p hp b hb
    rw [← hmk, ← hbq]
    exact hle
  · intro q
    refine ⟨(((sortKeyDesc Prod.snd (ratedPairs ms)).drop 5).filter
      fun rq => decide (rq.2 = q)).map mkHighlight, ?_⟩
    have h1 : (ratedPairs ms).filter (fun rq => decide (rq.2 = q)) =
        (sortKeyDesc Prod.snd (ratedPairs ms)).filter
          (fun rq => decide (rq.2 = q)) :=
      (filter_sortKeyDesc (Prod.snd : NormRecord × Rat → Rat)
        (ratedPairs ms) q).symm
    have h2 : (sortKeyDesc Prod.snd (ratedPairs ms)).filter
          (fun rq => decide (rq.2 = q)) =
        ((sortKeyDesc Prod.snd (ratedPairs ms)).take 5).filter
          (fun rq => decide (rq.2 = q)) ++
        ((sortKeyDesc Prod.snd (ratedPairs ms)).drop 5).filter
          (fun rq => decide (rq.2 = q)) := by
      rw [← List.filter_append, List.take_append_drop]
    have h3 : (top5 ms).filter (fun h => decide (h.rating = q)) =
        (((sortKeyDesc Prod.snd (ratedPairs ms)).take 5).filter
          (fun rq => decide (rq.2 = q))).map mkHighlight := by
      rw [top5, List.filter_map]
      rfl
    rw [h1, h2, List.map_append, h3]

/-- Witness for C7 on a concrete one-row subset: the single highlight
card comes from a rated pair of the subset. -/
theorem top5_spec_w :
    ∃ rq ∈ ratedPairs [demoNorm],
      mkHighlight (demoNorm, 6) = mkHighlight rq :=
  (top5_spec [demoNorm]).2.2.1 (mkHighlight (demoNorm, 6)) (by decide)
